import Mathlib

/-!
Verification of the http-acl outbound-request access-control engine.

The development shallowly embeds the two variants of the engine found in the
repository: the current crate (an `HttpAcl` policy with range lists, header
maps and URL-path routers, plus its builder and validator) and the earlier,
refined IP-classification variant (which distinguishes private addresses
from other non-global addresses).  Rust `Vec`/`HashSet`/`HashMap` fields are
embedded as Lean lists (membership and lookup are all the code uses of
them), `RangeInclusive` as a pair of endpoints, and fallible operations as
`Except`.  The IP globality predicates live in a `utils::ip` module that is
declared by the crate but whose file is not part of the sources; they are
modelled from the specification, as are the external path-router and host
syntax parsers.
-/

/-- An IP address: a 32-bit value for IPv4 or a 128-bit value for IPv6,
embedded as the numeric value of the address.  The derived Rust ordering
on `IpAddr` places every IPv4 address below every IPv6 address. -/
inductive IpAddr where
  | v4 (n : Nat)
  | v6 (n : Nat)
deriving DecidableEq, Repr

/-- The ordering used by `RangeInclusive<IpAddr>::contains`: IPv4 below
IPv6, numeric within a family. -/
def IpAddr.le : IpAddr → IpAddr → Bool
  | .v4 a, .v4 b => a ≤ b
  | .v4 _, .v6 _ => true
  | .v6 _, .v4 _ => false
  | .v6 a, .v6 b => a ≤ b

/-- Modelled from the spec: loopback classification from the missing
`utils::ip` module (IPv4 block 127.0.0.0/8, IPv6 address ::1). -/
def isLoopbackIp : IpAddr → Bool
  | .v4 n => n / 2 ^ 24 = 127
  | .v6 n => n = 1

/-- Modelled from the spec: private-use classification from the missing
`utils::ip` module (IPv4 blocks 10.0.0.0/8, 172.16.0.0/12, 192.168.0.0/16;
IPv6 unique-local space fc00::/7). -/
def isPrivateIp : IpAddr → Bool
  | .v4 n => n / 2 ^ 24 = 10 || n / 2 ^ 20 = 2753 || n / 2 ^ 16 = 49320
  | .v6 n => n / 2 ^ 121 = 126

/-- Modelled from the spec: link-local classification (IPv4 169.254.0.0/16,
IPv6 fe80::/10). -/
def isLinkLocalIp : IpAddr → Bool
  | .v4 n => n / 2 ^ 16 = 43518
  | .v6 n => n / 2 ^ 118 = 1018

/-- Modelled from the spec: documentation address blocks (IPv4
192.0.2.0/24, 198.51.100.0/24, 203.0.113.0/24; IPv6 2001:db8::/32). -/
def isDocumentationIp : IpAddr → Bool
  | .v4 n => n / 2 ^ 8 = 12582914 || n / 2 ^ 8 = 13005668 || n / 2 ^ 8 = 13304945
  | .v6 n => n / 2 ^ 96 = 536939960

/-- Modelled from the spec: reserved endpoints (the unspecified address of
each family and the IPv4 broadcast address). -/
def isReservedIp : IpAddr → Bool
  | .v4 n => n = 0 || n = 2 ^ 32 - 1
  | .v6 n => n = 0

/-- Modelled from the spec: `is_global_ip` from the missing `utils::ip`
module.  An address is globally routable when it falls in none of the
special-use classes above. -/
def isGlobalIp (ip : IpAddr) : Bool :=
  !(isPrivateIp ip || isLoopbackIp ip || isLinkLocalIp ip ||
    isDocumentationIp ip || isReservedIp ip)

namespace HttpAclCore

/-- A `RangeInclusive<u16>` of ports. -/
structure PortRange where
  lo : Nat
  hi : Nat
deriving DecidableEq, Repr

/-- Embeds `RangeInclusive<u16>::contains`. -/
def PortRange.containsPort (r : PortRange) (p : Nat) : Bool :=
  r.lo ≤ p && p ≤ r.hi

/-- A `RangeInclusive<IpAddr>`. -/
structure IpRange where
  lo : IpAddr
  hi : IpAddr
deriving DecidableEq, Repr

/-- Embeds `RangeInclusive<IpAddr>::contains`, under the derived `IpAddr` order. -/
def IpRange.containsIp (r : IpRange) (ip : IpAddr) : Bool :=
  IpAddr.le r.lo ip && IpAddr.le ip r.hi

/-- A socket address: IP plus port. -/
structure SocketAddrM where
  ip : IpAddr
  port : Nat
deriving DecidableEq, Repr

/-- Embeds `HttpRequestMethod` from the current crate. -/
inductive HttpRequestMethod where
  | CONNECT
  | DELETE
  | GET
  | HEAD
  | OPTIONS
  | PATCH
  | POST
  | PUT
  | TRACE
  | OTHER (s : String)
deriving DecidableEq, Repr

/-- Embeds `HttpRequestMethod::as_str`. -/
def HttpRequestMethod.as_str : HttpRequestMethod → String
  | .CONNECT => "CONNECT"
  | .DELETE => "DELETE"
  | .GET => "GET"
  | .HEAD => "HEAD"
  | .OPTIONS => "OPTIONS"
  | .PATCH => "PATCH"
  | .POST => "POST"
  | .PUT => "PUT"
  | .TRACE => "TRACE"
  | .OTHER s => s

/-- Embeds `AclClassification` from the current crate. -/
inductive AclClassification where
  | AllowedUserAcl
  | AllowedDefault
  | DeniedUserAcl
  | DeniedDefault
  | Denied (reason : String)
  | DeniedNotGlobal
deriving DecidableEq, Repr

/-- Embeds `AclClassification::is_allowed`. -/
def AclClassification.is_allowed : AclClassification → Bool
  | .AllowedUserAcl => true
  | .AllowedDefault => true
  | _ => false

/-- Embeds `AclClassification::is_denied`. -/
def AclClassification.is_denied : AclClassification → Bool
  | .DeniedUserAcl => true
  | .Denied _ => true
  | .DeniedDefault => true
  | .DeniedNotGlobal => true
  | _ => false

/-- A segment of a registered path template. -/
inductive PathSeg where
  | lit (s : String)
  | param
  | wildcard
deriving DecidableEq, Repr

/-- Modelled from the spec: the external path-router capability parses a
template segment as a named parameter (leading colon or braces), a trailing
wildcard (brace-star form), or a literal. -/
def parseSegment (s : String) : PathSeg :=
  if s.startsWith ":" then .param
  else if s.startsWith "\x7b*" then .wildcard
  else if s.startsWith "\x7b" then .param
  else .lit s

/-- Splits a path on slashes, dropping the empty leading segment. -/
def pathSegments (p : String) : List String :=
  (p.splitOn "/").drop 1

/-- Compiles a template string into its segments. -/
def templateSegments (t : String) : List PathSeg :=
  (pathSegments t).map parseSegment

/-- Modelled from the spec: template matching.  Literal segments match
exactly, a parameter matches any single nonempty segment, and a trailing
wildcard matches any nonempty remaining suffix. -/
def segsMatch : List PathSeg → List String → Bool
  | [], [] => true
  | [.wildcard], rest => !rest.isEmpty
  | .lit s :: ts, x :: xs => (s = x) && segsMatch ts xs
  | .param :: ts, x :: xs => (!(x = "")) && segsMatch ts xs
  | _, _ => false

/-- Modelled from the spec: a compiled route table is the list of its
compiled templates. -/
abbrev Router := List (List PathSeg)

/-- Modelled from the spec: `Router::at` succeeds when some registered
template matches the path. -/
def routerAt (r : Router) (path : String) : Bool :=
  r.any fun t => segsMatch t (pathSegments path)

/-- Modelled from the spec: `Router::insert` registers a template and
rejects a template already registered in the same table. -/
def routerInsert (r : Router) (t : String) : Option Router :=
  let segs := templateSegments t
  if segs ∈ r then none else some (r ++ [segs])

/-- The immutable `HttpAcl` policy of the current crate.  The optional
type-erased `validate_fn` callback is omitted: it is external input, not
policy data, and no classification function below consults it. -/
structure HttpAcl where
  allow_http : Bool
  allow_https : Bool
  allowed_methods : List HttpRequestMethod
  denied_methods : List HttpRequestMethod
  allowed_hosts : List String
  denied_hosts : List String
  allowed_port_ranges : List PortRange
  denied_port_ranges : List PortRange
  allowed_ip_ranges : List IpRange
  denied_ip_ranges : List IpRange
  static_dns_mapping : List (String × SocketAddrM)
  allowed_headers : List (String × Option String)
  denied_headers : List (String × Option String)
  allowed_url_paths_router : Router
  denied_url_paths_router : Router
  allow_non_global_ip_ranges : Bool
  method_acl_default : Bool
  host_acl_default : Bool
  port_acl_default : Bool
  ip_acl_default : Bool
  header_acl_default : Bool
  url_path_acl_default : Bool
deriving DecidableEq, Repr

/-- Embeds `HttpAcl::is_ip_in_ranges`. -/
def is_ip_in_ranges (ip : IpAddr) (ranges : List IpRange) : Bool :=
  ranges.any fun range => range.containsIp ip

/-- Embeds `HttpAcl::is_port_in_ranges`. -/
def is_port_in_ranges (p : Nat) (ranges : List PortRange) : Bool :=
  ranges.any fun range => range.containsPort p

/-- Embeds `HttpAcl::is_scheme_allowed`. -/
def HttpAcl.is_scheme_allowed (acl : HttpAcl) (scheme : String) : AclClassification :=
  if (scheme = "http" ∧ acl.allow_http = true) ∨ (scheme = "https" ∧ acl.allow_https = true) then
    .AllowedUserAcl
  else
    .DeniedUserAcl

/-- Embeds `HttpAcl::is_method_allowed`. -/
def HttpAcl.is_method_allowed (acl : HttpAcl) (method : HttpRequestMethod) : AclClassification :=
  if method ∈ acl.allowed_methods then .AllowedUserAcl
  else if method ∈ acl.denied_methods then .DeniedUserAcl
  else if acl.method_acl_default then .AllowedDefault
  else .DeniedDefault

/-- Embeds `HttpAcl::is_host_allowed`. -/
def HttpAcl.is_host_allowed (acl : HttpAcl) (host : String) : AclClassification :=
  if host ∈ acl.denied_hosts then .DeniedUserAcl
  else if host ∈ acl.allowed_hosts then .AllowedUserAcl
  else if acl.host_acl_default then .AllowedDefault
  else .DeniedDefault

/-- Embeds `HttpAcl::is_port_allowed`. -/
def HttpAcl.is_port_allowed (acl : HttpAcl) (port : Nat) : AclClassification :=
  if is_port_in_ranges port acl.denied_port_ranges then .DeniedUserAcl
  else if is_port_in_ranges port acl.allowed_port_ranges then .AllowedUserAcl
  else if acl.port_acl_default then .AllowedDefault
  else .DeniedDefault

/-- Embeds `HttpAcl::is_ip_allowed` (the coarse, non-global-gated variant). -/
def HttpAcl.is_ip_allowed (acl : HttpAcl) (ip : IpAddr) : AclClassification :=
  if !isGlobalIp ip && !acl.allow_non_global_ip_ranges then .DeniedNotGlobal
  else if is_ip_in_ranges ip acl.allowed_ip_ranges then .AllowedUserAcl
  else if is_ip_in_ranges ip acl.denied_ip_ranges then .DeniedUserAcl
  else if acl.ip_acl_default then .AllowedDefault
  else .DeniedDefault

/-- Embeds `HttpAcl::resolve_static_dns_mapping`. -/
def HttpAcl.resolve_static_dns_mapping (acl : HttpAcl) (host : String) : Option SocketAddrM :=
  (acl.static_dns_mapping.lookup host)

/-- Embeds `HttpAcl::is_header_allowed`. -/
def HttpAcl.is_header_allowed (acl : HttpAcl) (name value : String) : AclClassification :=
  match acl.allowed_headers.lookup name with
  | some av =>
    if av = some value ∨ av = none then .AllowedUserAcl else .DeniedUserAcl
  | none =>
    match acl.denied_headers.lookup name with
    | some dv =>
      if dv = some value ∨ dv = none then .DeniedUserAcl else .AllowedUserAcl
    | none =>
      if acl.header_acl_default then .AllowedDefault else .DeniedDefault

/-- Embeds `HttpAcl::is_url_path_allowed`. -/
def HttpAcl.is_url_path_allowed (acl : HttpAcl) (url_path : String) : AclClassification :=
  if routerAt acl.allowed_url_paths_router url_path then .AllowedUserAcl
  else if routerAt acl.denied_url_paths_router url_path then .DeniedUserAcl
  else if acl.url_path_acl_default then .AllowedDefault
  else .DeniedDefault

end HttpAclCore

namespace HttpAclCore

/-- Embeds `AddError` from the current crate.  Formatted message payloads are
carried as plain strings; no classification depends on their text. -/
inductive AddError where
  | AlreadyAllowedMethod (m : HttpRequestMethod)
  | AlreadyDeniedMethod (m : HttpRequestMethod)
  | AlreadyAllowedHost (h : String)
  | AlreadyDeniedHost (h : String)
  | AlreadyAllowedPortRange (r : PortRange)
  | AlreadyDeniedPortRange (r : PortRange)
  | AlreadyAllowedIpRange (r : IpRange)
  | AlreadyDeniedIpRange (r : IpRange)
  | NonGlobalIpRange (r : IpRange)
  | AlreadyAllowedHeader (name : String) (value : Option String)
  | AlreadyDeniedHeader (name : String) (value : Option String)
  | AlreadyAllowedUrlPath (p : String)
  | AlreadyDeniedUrlPath (p : String)
  | AlreadyPresentStaticDnsMapping (h : String) (a : SocketAddrM)
  | InvalidEntity (s : String)
  | NotUnique (s : String)
  | Overlaps (s : String)
  | BothAllowedAndDenied (s : String)
  | Error (s : String)
deriving DecidableEq, Repr

/-- Embeds `utils::has_unique_elements`: true when no element repeats. -/
def has_unique_elements {α} [DecidableEq α] : List α → Bool
  | [] => true
  | x :: xs => !(x ∈ xs : Bool) && has_unique_elements xs

/-- Embeds `utils::range_overlaps` for port ranges: does `range` intersect any
entry of `ranges` other than the one at `self_index`? -/
def range_overlaps (ranges : List PortRange) (range : PortRange)
    (self_index : Option Nat) : Bool :=
  (ranges.enum.filter fun p =>
    match self_index with
    | some i => !(p.1 = i : Bool)
    | none => true).any
    fun p => p.2.lo ≤ range.hi && range.lo ≤ p.2.hi

/-- Embeds `utils::range_overlaps` for IP ranges. -/
def ip_range_overlaps (ranges : List IpRange) (range : IpRange)
    (self_index : Option Nat) : Bool :=
  (ranges.enum.filter fun p =>
    match self_index with
    | some i => !(p.1 = i : Bool)
    | none => true).any
    fun p => IpAddr.le p.2.lo range.hi && IpAddr.le range.lo p.2.hi

/-- Stable insertion by range start, for `has_overlapping_ranges`. -/
def insertByStart (x : PortRange) : List PortRange → List PortRange
  | [] => [x]
  | y :: ys => if x.lo < y.lo then x :: y :: ys else y :: insertByStart x ys

/-- Embeds `utils::has_overlapping_ranges` for port ranges: sort by start and
check each adjacent pair for intersection. -/
def has_overlapping_ranges (ranges : List PortRange) : Bool :=
  let rec chain : List PortRange → Bool
    | a :: b :: rest => (b.lo ≤ a.hi) || chain (b :: rest)
    | _ => false
  chain (ranges.foldr insertByStart [])

/-- Stable insertion by range start for IP ranges. -/
def ipInsertByStart (x : IpRange) : List IpRange → List IpRange
  | [] => [x]
  | y :: ys =>
    if IpAddr.le x.lo y.lo && !(x.lo = y.lo : Bool) then x :: y :: ys
    else y :: ipInsertByStart x ys

/-- Embeds `utils::has_overlapping_ranges` for IP ranges. -/
def ip_has_overlapping_ranges (ranges : List IpRange) : Bool :=
  let rec chain : List IpRange → Bool
    | a :: b :: rest => IpAddr.le b.lo a.hi || chain (b :: rest)
    | _ => false
  chain (ranges.foldr ipInsertByStart [])

/-- Modelled from the spec: `utils::authority::is_valid_host` delegates to
external socket-address, IP and URL host parsers; here a host string is
syntactically valid when it is nonempty and made of hostname or IP literal
characters. -/
def is_valid_host (s : String) : Bool :=
  !(s = "" : Bool) && s.toList.all fun c =>
    c.isAlphanum || c = '-' || c = '.' || c = ':' || c = '[' || c = ']'

/-- Embeds `IntoIpRange::validate` for a `RangeInclusive<IpAddr>`: the range is
kept only when its start does not exceed its end. -/
def intoIpRange (r : IpRange) : Option IpRange :=
  if IpAddr.le r.lo r.hi then some r else none

/-- The `collect::<Option<Vec<_>>>` step of the IP-range setters. -/
def intoIpRanges (rs : List IpRange) : Option (List IpRange) :=
  if rs.all fun r => (intoIpRange r).isSome then some rs else none

/-- The mutable `HttpAclBuilder` of the current crate. -/
structure HttpAclBuilder where
  allow_http : Bool
  allow_https : Bool
  allowed_methods : List HttpRequestMethod
  denied_methods : List HttpRequestMethod
  allowed_hosts : List String
  denied_hosts : List String
  allowed_port_ranges : List PortRange
  denied_port_ranges : List PortRange
  allowed_ip_ranges : List IpRange
  denied_ip_ranges : List IpRange
  static_dns_mapping : List (String × SocketAddrM)
  allowed_headers : List (String × Option String)
  denied_headers : List (String × Option String)
  allowed_url_paths : List String
  allowed_url_paths_router : Router
  denied_url_paths : List String
  denied_url_paths_router : Router
  allow_non_global_ip_ranges : Bool
  method_acl_default : Bool
  host_acl_default : Bool
  port_acl_default : Bool
  ip_acl_default : Bool
  header_acl_default : Bool
  url_path_acl_default : Bool
deriving DecidableEq, Repr

/-- Embeds `HttpAclBuilder::new`. -/
def HttpAclBuilder.new : HttpAclBuilder where
  allow_http := true
  allow_https := true
  allowed_methods :=
    [.CONNECT, .DELETE, .GET, .HEAD, .OPTIONS, .PATCH, .POST, .PUT, .TRACE]
  denied_methods := []
  allowed_hosts := []
  denied_hosts := []
  allowed_port_ranges := [⟨80, 80⟩, ⟨443, 443⟩]
  denied_port_ranges := []
  allowed_ip_ranges := []
  denied_ip_ranges := []
  static_dns_mapping := []
  allowed_headers := []
  denied_headers := []
  allowed_url_paths := []
  allowed_url_paths_router := []
  denied_url_paths := []
  denied_url_paths_router := []
  allow_non_global_ip_ranges := false
  method_acl_default := false
  host_acl_default := false
  port_acl_default := false
  ip_acl_default := false
  header_acl_default := true
  url_path_acl_default := true

/-- Returns the first error produced by `f` over a list, scanning left to
right, mirroring the `for` loops of the bulk setters and validator. -/
def firstErr {α} (f : α → Option AddError) : List α → Option AddError
  | [] => none
  | x :: xs =>
    match f x with
    | some e => some e
    | none => firstErr f xs

/-- Indexed variant of `firstErr`, for loops that use `enumerate`. -/
def firstErrIdx {α} (f : Nat → α → Option AddError) (i : Nat) :
    List α → Option AddError
  | [] => none
  | x :: xs =>
    match f i x with
    | some e => some e
    | none => firstErrIdx f (i + 1) xs

/-- Embeds `HttpAclBuilder::allowed_methods` (bulk replace). -/
def HttpAclBuilder.set_allowed_methods (b : HttpAclBuilder)
    (methods : List HttpRequestMethod) : Except AddError HttpAclBuilder :=
  match firstErr
      (fun m => if m ∈ b.denied_methods then some (.AlreadyDeniedMethod m) else none)
      methods with
  | some e => .error e
  | none => .ok { b with allowed_methods := methods }

/-- Embeds `HttpAclBuilder::denied_methods` (bulk replace). -/
def HttpAclBuilder.set_denied_methods (b : HttpAclBuilder)
    (methods : List HttpRequestMethod) : Except AddError HttpAclBuilder :=
  match firstErr
      (fun m => if m ∈ b.allowed_methods then some (.AlreadyAllowedMethod m) else none)
      methods with
  | some e => .error e
  | none => .ok { b with denied_methods := methods }

/-- Embeds `HttpAclBuilder::allowed_hosts` (bulk replace). -/
def HttpAclBuilder.set_allowed_hosts (b : HttpAclBuilder)
    (hosts : List String) : Except AddError HttpAclBuilder :=
  match firstErr
      (fun h =>
        if is_valid_host h then
          if h ∈ b.denied_hosts then some (.AlreadyDeniedHost h) else none
        else some (.InvalidEntity h))
      hosts with
  | some e => .error e
  | none => .ok { b with allowed_hosts := hosts }

/-- Embeds `HttpAclBuilder::denied_hosts` (bulk replace). -/
def HttpAclBuilder.set_denied_hosts (b : HttpAclBuilder)
    (hosts : List String) : Except AddError HttpAclBuilder :=
  match firstErr
      (fun h =>
        if is_valid_host h then
          if h ∈ b.allowed_hosts then some (.AlreadyAllowedHost h) else none
        else some (.InvalidEntity h))
      hosts with
  | some e => .error e
  | none => .ok { b with denied_hosts := hosts }

/-- Embeds `HttpAclBuilder::allowed_port_ranges` (bulk replace): each entry is
checked against the denied list for membership, against the rest of the
replacement list for overlap, and against the denied list for overlap. -/
def HttpAclBuilder.set_allowed_port_ranges (b : HttpAclBuilder)
    (port_ranges : List PortRange) : Except AddError HttpAclBuilder :=
  match firstErrIdx
      (fun i r =>
        if r ∈ b.denied_port_ranges then some (.AlreadyDeniedPortRange r)
        else if range_overlaps port_ranges r (some i) ||
            range_overlaps b.denied_port_ranges r none then
          some (.Overlaps "port range")
        else none)
      0 port_ranges with
  | some e => .error e
  | none => .ok { b with allowed_port_ranges := port_ranges }

/-- Embeds `HttpAclBuilder::denied_port_ranges` (bulk replace): the code checks
only exact membership in the allowed list. -/
def HttpAclBuilder.set_denied_port_ranges (b : HttpAclBuilder)
    (port_ranges : List PortRange) : Except AddError HttpAclBuilder :=
  match firstErr
      (fun r =>
        if r ∈ b.allowed_port_ranges then some (.AlreadyAllowedPortRange r) else none)
      port_ranges with
  | some e => .error e
  | none => .ok { b with denied_port_ranges := port_ranges }

/-- Embeds `HttpAclBuilder::allowed_ip_ranges` (bulk replace). -/
def HttpAclBuilder.set_allowed_ip_ranges (b : HttpAclBuilder)
    (ip_ranges : List IpRange) : Except AddError HttpAclBuilder :=
  match intoIpRanges ip_ranges with
  | none => .error (.InvalidEntity "Invalid IP range")
  | some ip_ranges =>
    match firstErrIdx
        (fun i r =>
          if r ∈ b.denied_ip_ranges then some (.AlreadyDeniedIpRange r)
          else if ip_range_overlaps ip_ranges r (some i) ||
              ip_range_overlaps b.denied_ip_ranges r none then
            some (.Overlaps "ip range")
          else none)
        0 ip_ranges with
    | some e => .error e
    | none => .ok { b with allowed_ip_ranges := ip_ranges }

/-- Embeds `HttpAclBuilder::denied_ip_ranges` (bulk replace). -/
def HttpAclBuilder.set_denied_ip_ranges (b : HttpAclBuilder)
    (ip_ranges : List IpRange) : Except AddError HttpAclBuilder :=
  match intoIpRanges ip_ranges with
  | none => .error (.InvalidEntity "Invalid IP range")
  | some ip_ranges =>
    match firstErrIdx
        (fun i r =>
          if r ∈ b.allowed_ip_ranges then some (.AlreadyAllowedIpRange r)
          else if ip_range_overlaps ip_ranges r (some i) ||
              ip_range_overlaps b.allowed_ip_ranges r none then
            some (.Overlaps "ip range")
          else none)
        0 ip_ranges with
    | some e => .error e
    | none => .ok { b with denied_ip_ranges := ip_ranges }

/-- Embeds `HttpAclBuilder::allowed_headers` (bulk replace). -/
def HttpAclBuilder.set_allowed_headers (b : HttpAclBuilder)
    (headers : List (String × Option String)) : Except AddError HttpAclBuilder :=
  match firstErr
      (fun kv =>
        if (b.denied_headers.lookup kv.1).isSome then
          some (.AlreadyDeniedHeader kv.1 kv.2)
        else none)
      headers with
  | some e => .error e
  | none => .ok { b with allowed_headers := headers }

/-- Embeds `HttpAclBuilder::denied_headers` (bulk replace). -/
def HttpAclBuilder.set_denied_headers (b : HttpAclBuilder)
    (headers : List (String × Option String)) : Except AddError HttpAclBuilder :=
  match firstErr
      (fun kv =>
        if (b.allowed_headers.lookup kv.1).isSome then
          some (.AlreadyAllowedHeader kv.1 kv.2)
        else none)
      headers with
  | some e => .error e
  | none => .ok { b with denied_headers := headers }

/-- Embeds `HttpAclBuilder::build` (and `build_full` with no callback): the
unvalidated conversion of the builder into a policy. -/
def HttpAclBuilder.build (b : HttpAclBuilder) : HttpAcl where
  allow_http := b.allow_http
  allow_https := b.allow_https
  allowed_methods := b.allowed_methods
  denied_methods := b.denied_methods
  allowed_hosts := b.allowed_hosts
  denied_hosts := b.denied_hosts
  allowed_port_ranges := b.allowed_port_ranges
  denied_port_ranges := b.denied_port_ranges
  allowed_ip_ranges := b.allowed_ip_ranges
  denied_ip_ranges := b.denied_ip_ranges
  static_dns_mapping := b.static_dns_mapping
  allowed_headers := b.allowed_headers
  denied_headers := b.denied_headers
  allowed_url_paths_router := b.allowed_url_paths_router
  denied_url_paths_router := b.denied_url_paths_router
  allow_non_global_ip_ranges := b.allow_non_global_ip_ranges
  method_acl_default := b.method_acl_default
  host_acl_default := b.host_acl_default
  port_acl_default := b.port_acl_default
  ip_acl_default := b.ip_acl_default
  header_acl_default := b.header_acl_default
  url_path_acl_default := b.url_path_acl_default

/-- Converts the first error of a validator loop into an `Except` step. -/
def checkEach {α} (f : α → Option AddError) (l : List α) : Except AddError Unit :=
  match firstErr f l with
  | some e => .error e
  | none => .ok ()

/-- Fails with `e` when `c` holds, mirroring the guard clauses of
`try_build_full`. -/
def guardNot (c : Bool) (e : AddError) : Except AddError Unit :=
  if c then .error e else .ok ()

/-- The allowed-URL-path loop of `try_build_full`: each path must not be
denied (by list membership or by a denied-router match), and is inserted
into the allowed router when it does not already match it. -/
def insertAllowedPaths (denied_paths : List String) (denied_router : Router) :
    Router → List String → Except AddError Router
  | r, [] => .ok r
  | r, p :: ps =>
    if p ∈ denied_paths ∨ routerAt denied_router p = true then
      .error (.BothAllowedAndDenied ("URL path " ++ p))
    else if routerAt r p then insertAllowedPaths denied_paths denied_router r ps
    else
      match routerInsert r p with
      | none => .error (.InvalidEntity ("Failed to insert allowed URL path " ++ p ++ "."))
      | some r2 => insertAllowedPaths denied_paths denied_router r2 ps

/-- The denied-URL-path loop of `try_build_full`; it consults the allowed
router as updated by the allowed loop. -/
def insertDeniedPaths (allowed_paths : List String) (allowed_router : Router) :
    Router → List String → Except AddError Router
  | r, [] => .ok r
  | r, p :: ps =>
    if p ∈ allowed_paths ∨ routerAt allowed_router p = true then
      .error (.BothAllowedAndDenied ("URL path " ++ p))
    else if routerAt r p then insertDeniedPaths allowed_paths allowed_router r ps
    else
      match routerInsert r p with
      | none => .error (.InvalidEntity ("Failed to insert denied URL path " ++ p ++ "."))
      | some r2 => insertDeniedPaths allowed_paths allowed_router r2 ps

/-- Embeds `HttpAclBuilder::try_build_full`: the full validation pass, in the
order the code performs it, ending in `build_full`. -/
def HttpAclBuilder.try_build (b : HttpAclBuilder) : Except AddError HttpAcl := do
  guardNot (!has_unique_elements b.allowed_methods)
    (.NotUnique "Allowed methods must be unique.")
  checkEach
    (fun m =>
      if m ∈ b.denied_methods then
        some (.BothAllowedAndDenied ("Method " ++ m.as_str))
      else none)
    b.allowed_methods
  guardNot (!has_unique_elements b.denied_methods)
    (.NotUnique "Denied methods must be unique.")
  checkEach
    (fun m =>
      if m ∈ b.allowed_methods then
        some (.BothAllowedAndDenied ("Method " ++ m.as_str))
      else none)
    b.denied_methods
  guardNot (!has_unique_elements b.allowed_hosts)
    (.NotUnique "Allowed hosts must be unique.")
  checkEach
    (fun h =>
      if !is_valid_host h then some (.InvalidEntity h)
      else if h ∈ b.denied_hosts then some (.BothAllowedAndDenied ("Host " ++ h))
      else none)
    b.allowed_hosts
  guardNot (!has_unique_elements b.denied_hosts)
    (.NotUnique "Denied hosts must be unique.")
  checkEach
    (fun h =>
      if !is_valid_host h then some (.InvalidEntity h)
      else if h ∈ b.allowed_hosts then some (.BothAllowedAndDenied ("Host " ++ h))
      else none)
    b.denied_hosts
  guardNot (!has_unique_elements b.allowed_port_ranges)
    (.NotUnique "Allowed port ranges must be unique.")
  guardNot (has_overlapping_ranges b.allowed_port_ranges)
    (.Overlaps "Allowed port ranges must not overlap.")
  checkEach
    (fun r =>
      if r ∈ b.denied_port_ranges then some (.BothAllowedAndDenied "Port range")
      else none)
    b.allowed_port_ranges
  guardNot (!has_unique_elements b.denied_port_ranges)
    (.NotUnique "Denied port ranges must be unique.")
  guardNot (has_overlapping_ranges b.denied_port_ranges)
    (.Overlaps "Denied port ranges must not overlap.")
  checkEach
    (fun r =>
      if r ∈ b.allowed_port_ranges then some (.BothAllowedAndDenied "Port range")
      else none)
    b.denied_port_ranges
  guardNot (!has_unique_elements b.allowed_ip_ranges)
    (.NotUnique "Allowed IP ranges must be unique.")
  guardNot (ip_has_overlapping_ranges b.allowed_ip_ranges)
    (.Overlaps "Allowed IP ranges must not overlap.")
  checkEach
    (fun r =>
      if r ∈ b.denied_ip_ranges then some (.BothAllowedAndDenied "IP range")
      else none)
    b.allowed_ip_ranges
  guardNot (!has_unique_elements b.denied_ip_ranges)
    (.NotUnique "Denied IP ranges must be unique.")
  guardNot (ip_has_overlapping_ranges b.denied_ip_ranges)
    (.Overlaps "Denied IP ranges must not overlap.")
  checkEach
    (fun r =>
      if r ∈ b.allowed_ip_ranges then some (.BothAllowedAndDenied "IP range")
      else none)
    b.denied_ip_ranges
  guardNot (!has_unique_elements b.static_dns_mapping)
    (.NotUnique "Static DNS mapping must be unique.")
  checkEach
    (fun kv => if !is_valid_host kv.1 then some (.InvalidEntity kv.1) else none)
    b.static_dns_mapping
  guardNot (!has_unique_elements b.allowed_url_paths)
    (.NotUnique "Allowed URL paths must be unique.")
  let ar ← insertAllowedPaths b.denied_url_paths b.denied_url_paths_router
    b.allowed_url_paths_router b.allowed_url_paths
  guardNot (!has_unique_elements b.denied_url_paths)
    (.NotUnique "Denied URL paths must be unique.")
  let dr ← insertDeniedPaths b.allowed_url_paths ar
    b.denied_url_paths_router b.denied_url_paths
  .ok ({ b with
    allowed_url_paths_router := ar
    denied_url_paths_router := dr }.build)

end HttpAclCore

namespace HttpAclCore

/-- The failure modes of the ACL-enforcing resolver wrapper: a policy
denial of the hostname, or an error propagated from the delegate. -/
inductive ResolveError where
  | hostDenied
  | upstream (msg : String)
deriving DecidableEq, Repr

/-- Embeds `impl Resolve for HttpAclDnsResolver`: deny the hostname before
consulting the delegate; otherwise keep exactly the delegate addresses
whose IP and port classifications are both allowed.  The delegate
resolution is embedded as its result. -/
def aclResolve (acl : HttpAcl) (host : String)
    (delegate : Except String (List SocketAddrM)) :
    Except ResolveError (List SocketAddrM) :=
  if (acl.is_host_allowed host).is_denied then .error .hostDenied
  else
    match delegate with
    | .ok addresses =>
      .ok (addresses.filter fun addr =>
        (acl.is_ip_allowed addr.ip).is_allowed &&
        (acl.is_port_allowed addr.port).is_allowed)
    | .error e => .error (.upstream e)

end HttpAclCore

namespace HttpAclRefined

/-- Embeds `AclClassification` from the refined variant, which adds
`DeniedPrivateRange`. -/
inductive AclClassification where
  | AllowedUserAcl
  | AllowedDefault
  | DeniedUserAcl
  | DeniedNotGlobal
  | DeniedPrivateRange
  | DeniedDefault
  | Denied (reason : String)
deriving DecidableEq, Repr

/-- Embeds `AclClassification::is_allowed` (refined variant). -/
def AclClassification.is_allowed : AclClassification → Bool
  | .AllowedUserAcl => true
  | .AllowedDefault => true
  | _ => false

/-- Embeds `AclClassification::is_denied` (refined variant). -/
def AclClassification.is_denied : AclClassification → Bool
  | .DeniedUserAcl => true
  | .Denied _ => true
  | .DeniedDefault => true
  | .DeniedNotGlobal => true
  | .DeniedPrivateRange => true
  | _ => false

/-- Embeds `HttpRequestMethods` from the refined variant. -/
inductive HttpRequestMethods where
  | CONNECT
  | DELETE
  | GET
  | HEAD
  | OPTIONS
  | PATCH
  | POST
  | PUT
  | TRACE
  | OTHER (s : String)
deriving DecidableEq, Repr

/-- An `IpNet` CIDR block of the external ipnet crate: an address and a
network prefix length within one family. -/
structure IpNet where
  isV6 : Bool
  addr : Nat
  prefixLen : Nat
deriving DecidableEq, Repr

/-- Embeds `IpNet::contains`, modelled from the external crate: the candidate is
in the block when the families agree and the network prefixes match. -/
def IpNet.containsIp (net : IpNet) : IpAddr → Bool
  | .v4 a =>
    !net.isV6 && (a / 2 ^ (32 - net.prefixLen) = net.addr / 2 ^ (32 - net.prefixLen))
  | .v6 a =>
    net.isV6 && (a / 2 ^ (128 - net.prefixLen) = net.addr / 2 ^ (128 - net.prefixLen))

/-- The refined `HttpAcl` policy. -/
structure HttpAcl where
  allow_http : Bool
  allow_https : Bool
  allowed_methods : List HttpRequestMethods
  denied_methods : List HttpRequestMethods
  allowed_hosts : List String
  denied_hosts : List String
  allowed_ports : List Nat
  denied_ports : List Nat
  allowed_ip_ranges : List IpNet
  denied_ip_ranges : List IpNet
  allow_private_ip_ranges : Bool
  method_acl_default : Bool
  host_acl_default : Bool
  port_acl_default : Bool
  ip_acl_default : Bool
deriving DecidableEq, Repr

/-- Embeds `HttpAcl::is_ip_in_ranges` (refined variant). -/
def is_ip_in_ranges (ip : IpAddr) (ranges : List IpNet) : Bool :=
  ranges.any fun range => range.containsIp ip

/-- Embeds `HttpAcl::is_method_allowed` (refined variant). -/
def HttpAcl.is_method_allowed (acl : HttpAcl) (method : HttpRequestMethods) :
    AclClassification :=
  if method ∈ acl.allowed_methods then .AllowedUserAcl
  else if method ∈ acl.denied_methods then .DeniedUserAcl
  else if acl.method_acl_default then .AllowedDefault
  else .DeniedDefault

/-- Embeds `HttpAcl::is_ip_allowed` (refined variant): the non-global,
non-private gate first, then allow-ranges, deny-ranges, the private-range
gate, and the default flag. -/
def HttpAcl.is_ip_allowed (acl : HttpAcl) (ip : IpAddr) : AclClassification :=
  if (!isGlobalIp ip || isLoopbackIp ip) && !isPrivateIp ip then
    if is_ip_in_ranges ip acl.allowed_ip_ranges then .AllowedUserAcl
    else .DeniedNotGlobal
  else if is_ip_in_ranges ip acl.allowed_ip_ranges then .AllowedUserAcl
  else if is_ip_in_ranges ip acl.denied_ip_ranges then .DeniedUserAcl
  else if isPrivateIp ip && !acl.allow_private_ip_ranges then .DeniedPrivateRange
  else if acl.ip_acl_default then .AllowedDefault
  else .DeniedDefault

end HttpAclRefined

namespace HttpAclCore

/-- A policy with every list empty and every flag false, the base for the
concrete test policies below. -/
def emptyAcl : HttpAcl where
  allow_http := false
  allow_https := false
  allowed_methods := []
  denied_methods := []
  allowed_hosts := []
  denied_hosts := []
  allowed_port_ranges := []
  denied_port_ranges := []
  allowed_ip_ranges := []
  denied_ip_ranges := []
  static_dns_mapping := []
  allowed_headers := []
  denied_headers := []
  allowed_url_paths_router := []
  denied_url_paths_router := []
  allow_non_global_ip_ranges := false
  method_acl_default := false
  host_acl_default := false
  port_acl_default := false
  ip_acl_default := false
  header_acl_default := false
  url_path_acl_default := false

/-- A policy whose allowed IP ranges cover all of 10.0.0.0/8 while
non-global addresses stay disallowed. -/
def c1Acl : HttpAcl :=
  { emptyAcl with allowed_ip_ranges := [⟨.v4 167772160, .v4 184549375⟩] }

/-- A builder state, reachable through deserialization or direct
construction, with GET in both method lists. -/
def c3Builder : HttpAclBuilder :=
  { HttpAclBuilder.new with allowed_methods := [.GET], denied_methods := [.GET] }

/-- A policy with empty rule lists whose IP default flag allows. -/
def c4Acl : HttpAcl :=
  { emptyAcl with ip_acl_default := true }

/-- A policy with one exact-valued allowed header and one value-free
denied header. -/
def c7Acl : HttpAcl :=
  { emptyAcl with
    allowed_headers := [("X-Allowed", some "true")]
    denied_headers := [("X-Denied", none)] }

/-- A policy that accepts every host by default, allows the global range
1.0.0.0/8 and permits ports 80 and 443, for exercising the resolver
filter. -/
def c2Acl : HttpAcl :=
  { emptyAcl with
    host_acl_default := true
    allowed_ip_ranges := [⟨.v4 16777216, .v4 33554431⟩]
    allowed_port_ranges := [⟨80, 80⟩, ⟨443, 443⟩] }

end HttpAclCore

namespace HttpAclRefined

/-- A refined-variant policy with every list empty and every flag false. -/
def emptyAcl : HttpAcl where
  allow_http := false
  allow_https := false
  allowed_methods := []
  denied_methods := []
  allowed_hosts := []
  denied_hosts := []
  allowed_ports := []
  denied_ports := []
  allowed_ip_ranges := []
  denied_ip_ranges := []
  allow_private_ip_ranges := false
  method_acl_default := false
  host_acl_default := false
  port_acl_default := false
  ip_acl_default := false

end HttpAclRefined

open HttpAclCore

/-- C1 counterexample: 10.0.0.1 is non-global, non-global addresses are
not allowed, and an allowed range contains it, yet the coarse
`is_ip_allowed` returns `DeniedNotGlobal`, not `AllowedUserAcl`. -/
theorem c1_counterexample :
    isGlobalIp (.v4 167772161) = false ∧
    c1Acl.allow_non_global_ip_ranges = false ∧
    is_ip_in_ranges (.v4 167772161) c1Acl.allowed_ip_ranges = true ∧
    c1Acl.is_ip_allowed (.v4 167772161) = .DeniedNotGlobal := by
  decide

/-- C1 amended: in the coarse classification, when non-global addresses
are not allowed, every non-global address is classified `DeniedNotGlobal`
regardless of the allowed IP ranges; the allow-ranges are consulted only
once the non-global gate has passed. -/
theorem c1_amended (acl : HttpAcl) (ip : IpAddr)
    (hng : isGlobalIp ip = false)
    (hflag : acl.allow_non_global_ip_ranges = false) :
    acl.is_ip_allowed ip = .DeniedNotGlobal := by
  simp [HttpAcl.is_ip_allowed, hng, hflag]

/-- C1 witness: the amended theorem applied at 10.0.0.1 under `c1Acl`. -/
theorem c1_witness :
    isGlobalIp (.v4 167772161) = false ∧
    c1Acl.allow_non_global_ip_ranges = false ∧
    c1Acl.is_ip_allowed (.v4 167772161) = .DeniedNotGlobal :=
  ⟨by decide, by decide, c1_amended c1Acl (.v4 167772161) (by decide) (by decide)⟩

/-- C3 counterexample: with GET present in both method lists of an
unvalidated policy, `is_method_allowed` answers `AllowedUserAcl`, not the
`DeniedUserAcl` the deny-first claim requires. -/
theorem c3_counterexample :
    HttpRequestMethod.GET ∈ c3Builder.build.allowed_methods ∧
    HttpRequestMethod.GET ∈ c3Builder.build.denied_methods ∧
    c3Builder.build.is_method_allowed .GET = .AllowedUserAcl := by
  decide

/-- C3 amended: `is_method_allowed` checks allow-list membership before
deny-list membership, so a method present in both lists is classified
`AllowedUserAcl`; a method only in the denied list is `DeniedUserAcl`;
otherwise the method default flag decides. -/
theorem c3_amended (acl : HttpAcl) (m : HttpRequestMethod) :
    (m ∈ acl.allowed_methods → acl.is_method_allowed m = .AllowedUserAcl) ∧
    (m ∉ acl.allowed_methods → m ∈ acl.denied_methods →
      acl.is_method_allowed m = .DeniedUserAcl) ∧
    (m ∉ acl.allowed_methods → m ∉ acl.denied_methods →
      acl.is_method_allowed m =
        if acl.method_acl_default then .AllowedDefault else .DeniedDefault) := by
  refine ⟨fun h1 => ?_, fun h1 h2 => ?_, fun h1 h2 => ?_⟩
  · simp [HttpAcl.is_method_allowed, h1]
  · simp [HttpAcl.is_method_allowed, h1, h2]
  · simp [HttpAcl.is_method_allowed, h1, h2]

/-- C3 witness: the amended theorem applied to the conflicted policy at
GET. -/
theorem c3_witness :
    c3Builder.build.is_method_allowed .GET = .AllowedUserAcl :=
  (c3_amended c3Builder.build .GET).1 (by decide)

/-- C4 counterexample: with both IP range lists empty and the IP default
flag set to allow, the non-global address 10.0.0.1 is still classified
`DeniedNotGlobal` rather than `AllowedDefault`. -/
theorem c4_counterexample :
    c4Acl.allowed_ip_ranges = [] ∧
    c4Acl.denied_ip_ranges = [] ∧
    c4Acl.ip_acl_default = true ∧
    c4Acl.is_ip_allowed (.v4 167772161) = .DeniedNotGlobal := by
  decide

/-- C4 amended: with empty allow and deny lists, the default flag decides
every input of the method, host, port, header and URL-path dimensions; in
the IP dimension it decides exactly the inputs that pass the non-global
gate, the rest being `DeniedNotGlobal`. -/
theorem c4_amended (acl : HttpAcl) :
    (acl.allowed_methods = [] → acl.denied_methods = [] →
      ∀ m, acl.is_method_allowed m =
        if acl.method_acl_default then .AllowedDefault else .DeniedDefault) ∧
    (acl.allowed_hosts = [] → acl.denied_hosts = [] →
      ∀ h, acl.is_host_allowed h =
        if acl.host_acl_default then .AllowedDefault else .DeniedDefault) ∧
    (acl.allowed_port_ranges = [] → acl.denied_port_ranges = [] →
      ∀ p, acl.is_port_allowed p =
        if acl.port_acl_default then .AllowedDefault else .DeniedDefault) ∧
    (acl.allowed_headers = [] → acl.denied_headers = [] →
      ∀ n v, acl.is_header_allowed n v =
        if acl.header_acl_default then .AllowedDefault else .DeniedDefault) ∧
    (acl.allowed_url_paths_router = [] → acl.denied_url_paths_router = [] →
      ∀ p, acl.is_url_path_allowed p =
        if acl.url_path_acl_default then .AllowedDefault else .DeniedDefault) ∧
    (acl.allowed_ip_ranges = [] → acl.denied_ip_ranges = [] →
      ∀ ip, acl.is_ip_allowed ip =
        if !isGlobalIp ip && !acl.allow_non_global_ip_ranges then .DeniedNotGlobal
        else if acl.ip_acl_default then .AllowedDefault else .DeniedDefault) := by
  refine ⟨fun h1 h2 m => ?_, fun h1 h2 h => ?_, fun h1 h2 p => ?_,
    fun h1 h2 n v => ?_, fun h1 h2 p => ?_, fun h1 h2 ip => ?_⟩
  · simp [HttpAcl.is_method_allowed, h1, h2]
  · simp [HttpAcl.is_host_allowed, h1, h2]
  · simp [HttpAcl.is_port_allowed, is_port_in_ranges, h1, h2]
  · simp [HttpAcl.is_header_allowed, h1, h2]
  · simp [HttpAcl.is_url_path_allowed, routerAt, h1, h2]
  · simp [HttpAcl.is_ip_allowed, is_ip_in_ranges, h1, h2]

/-- C4 witness: the amended theorem applied to concrete empty policies. -/
theorem c4_witness :
    emptyAcl.is_method_allowed .GET = .DeniedDefault ∧
    c4Acl.is_ip_allowed (.v4 16843009) = .AllowedDefault := by
  constructor
  · have h := (c4_amended emptyAcl).1 rfl rfl .GET
    simpa [emptyAcl] using h
  · have h := ((c4_amended c4Acl).2.2.2.2.2) rfl rfl (.v4 16843009)
    rw [h]
    decide

/-- C7: the header classification consults the allow-map first (a stored
absent value matches any observed value, a stored exact value must equal
it), then the deny-map with the symmetric reading, then the header default
flag. -/
theorem c7_header_classification (acl : HttpAcl) (n v : String) :
    (∀ sv, acl.allowed_headers.lookup n = some sv →
      acl.is_header_allowed n v =
        if sv = none ∨ sv = some v then .AllowedUserAcl else .DeniedUserAcl) ∧
    (acl.allowed_headers.lookup n = none →
      ∀ sv, acl.denied_headers.lookup n = some sv →
        acl.is_header_allowed n v =
          if sv = none ∨ sv = some v then .DeniedUserAcl else .AllowedUserAcl) ∧
    (acl.allowed_headers.lookup n = none → acl.denied_headers.lookup n = none →
      acl.is_header_allowed n v =
        if acl.header_acl_default then .AllowedDefault else .DeniedDefault) := by
  refine ⟨fun sv h1 => ?_, fun h1 sv h2 => ?_, fun h1 h2 => ?_⟩
  · simp only [HttpAcl.is_header_allowed, h1]
    by_cases hc : sv = some v ∨ sv = none
    · rw [if_pos hc, if_pos (Or.symm hc)]
    · rw [if_neg hc, if_neg fun h => hc (Or.symm h)]
  · simp only [HttpAcl.is_header_allowed, h1, h2]
    by_cases hc : sv = some v ∨ sv = none
    · rw [if_pos hc, if_pos (Or.symm hc)]
    · rw [if_neg hc, if_neg fun h => hc (Or.symm h)]
  · simp only [HttpAcl.is_header_allowed, h1, h2]

/-- C7 witness: the classification at the concrete header policy, via the
theorem. -/
theorem c7_witness :
    c7Acl.is_header_allowed "X-Allowed" "true" = .AllowedUserAcl ∧
    c7Acl.is_header_allowed "X-Denied" "anything" = .DeniedUserAcl := by
  constructor
  · have h := (c7_header_classification c7Acl "X-Allowed" "true").1 (some "true") (by decide)
    rw [h]
    decide
  · have h := (c7_header_classification c7Acl "X-Denied" "anything").2.1 (by decide)
      none (by decide)
    rw [h]
    decide

/-- C8: the refined IP classification sends every non-global (not
globally routable, or loopback), non-private address through the
allow-ranges alone, denying as `DeniedNotGlobal` on a miss; every other
address goes through allow-ranges, deny-ranges, the private-range gate and
then the IP default flag, in that order. -/
theorem c8_refined_ip (acl : HttpAclRefined.HttpAcl) (ip : IpAddr) :
    (((!isGlobalIp ip || isLoopbackIp ip) && !isPrivateIp ip) = true →
      acl.is_ip_allowed ip =
        if HttpAclRefined.is_ip_in_ranges ip acl.allowed_ip_ranges then
          .AllowedUserAcl
        else .DeniedNotGlobal) ∧
    (((!isGlobalIp ip || isLoopbackIp ip) && !isPrivateIp ip) = false →
      acl.is_ip_allowed ip =
        if HttpAclRefined.is_ip_in_ranges ip acl.allowed_ip_ranges then
          .AllowedUserAcl
        else if HttpAclRefined.is_ip_in_ranges ip acl.denied_ip_ranges then
          .DeniedUserAcl
        else if isPrivateIp ip && !acl.allow_private_ip_ranges then
          .DeniedPrivateRange
        else if acl.ip_acl_default then .AllowedDefault
        else .DeniedDefault) := by
  constructor <;> intro h <;> simp [HttpAclRefined.HttpAcl.is_ip_allowed, h]

/-- C8 witness: the loopback address 127.0.0.1 under the empty refined
policy lands in `DeniedNotGlobal` through the first branch. -/
theorem c8_witness :
    HttpAclRefined.emptyAcl.is_ip_allowed (.v4 2130706433) = .DeniedNotGlobal := by
  have h := (c8_refined_ip HttpAclRefined.emptyAcl (.v4 2130706433)).1 (by decide)
  rw [h]
  decide

/-- C9: in both variants, `is_allowed` holds exactly on `AllowedUserAcl`
and `AllowedDefault`, and `is_denied` is its pointwise negation, so the
two predicates partition the whole classification type. -/
theorem c9_classification_partition :
    (∀ c : AclClassification,
      (c.is_allowed = true ↔ c = .AllowedUserAcl ∨ c = .AllowedDefault) ∧
      c.is_denied = !c.is_allowed) ∧
    (∀ c : HttpAclRefined.AclClassification,
      (c.is_allowed = true ↔ c = .AllowedUserAcl ∨ c = .AllowedDefault) ∧
      c.is_denied = !c.is_allowed) := by
  constructor <;> intro c <;> cases c <;>
    simp [AclClassification.is_allowed, AclClassification.is_denied,
      HttpAclRefined.AclClassification.is_allowed,
      HttpAclRefined.AclClassification.is_denied]

/-- C10: the policy of a fresh, unmutated builder allows exactly ports 80
and 443, classifies the nine standard methods `AllowedUserAcl` and every
other method `DeniedDefault`, every host `DeniedDefault`, every IP as
denied (`DeniedNotGlobal` when non-global, `DeniedDefault` otherwise), and
every header and URL path `AllowedDefault`; `try_build` accepts the fresh
builder and produces the same policy as `build`. -/
theorem c10_default_policy :
    HttpAclBuilder.new.try_build = .ok HttpAclBuilder.new.build ∧
    (∀ p : Nat,
      (HttpAclBuilder.new.build.is_port_allowed p).is_allowed = true ↔
        p = 80 ∨ p = 443) ∧
    HttpAclBuilder.new.build.is_method_allowed .CONNECT = .AllowedUserAcl ∧
    HttpAclBuilder.new.build.is_method_allowed .DELETE = .AllowedUserAcl ∧
    HttpAclBuilder.new.build.is_method_allowed .GET = .AllowedUserAcl ∧
    HttpAclBuilder.new.build.is_method_allowed .HEAD = .AllowedUserAcl ∧
    HttpAclBuilder.new.build.is_method_allowed .OPTIONS = .AllowedUserAcl ∧
    HttpAclBuilder.new.build.is_method_allowed .PATCH = .AllowedUserAcl ∧
    HttpAclBuilder.new.build.is_method_allowed .POST = .AllowedUserAcl ∧
    HttpAclBuilder.new.build.is_method_allowed .PUT = .AllowedUserAcl ∧
    HttpAclBuilder.new.build.is_method_allowed .TRACE = .AllowedUserAcl ∧
    (∀ s, HttpAclBuilder.new.build.is_method_allowed (.OTHER s) = .DeniedDefault) ∧
    (∀ h, HttpAclBuilder.new.build.is_host_allowed h = .DeniedDefault) ∧
    (∀ ip, HttpAclBuilder.new.build.is_ip_allowed ip =
      if isGlobalIp ip then .DeniedDefault else .DeniedNotGlobal) ∧
    (∀ n v, HttpAclBuilder.new.build.is_header_allowed n v = .AllowedDefault) ∧
    (∀ p, HttpAclBuilder.new.build.is_url_path_allowed p = .AllowedDefault) := by
  refine ⟨rfl, ?_, by decide, by decide, by decide, by decide, by decide, by decide,
    by decide, by decide, by decide, ?_, ?_, ?_, ?_, ?_⟩
  · intro p
    rcases eq_or_ne p 80 with rfl | h80
    · decide
    rcases eq_or_ne p 443 with rfl | h443
    · decide
    have hmem : is_port_in_ranges p [⟨80, 80⟩, ⟨443, 443⟩] = false := by
      simp [is_port_in_ranges, PortRange.containsPort]
      omega
    have hmem2 : is_port_in_ranges p ([] : List PortRange) = false := by
      simp [is_port_in_ranges]
    simp [HttpAcl.is_port_allowed, hmem, hmem2, AclClassification.is_allowed,
      HttpAclBuilder.build, HttpAclBuilder.new, h80, h443]
  · intro s
    simp [HttpAcl.is_method_allowed, HttpAclBuilder.build, HttpAclBuilder.new]
  · intro h
    simp [HttpAcl.is_host_allowed, HttpAclBuilder.build, HttpAclBuilder.new]
  · intro ip
    rcases Bool.eq_false_or_eq_true (isGlobalIp ip) with hg | hg <;>
      simp [HttpAcl.is_ip_allowed, is_ip_in_ranges, hg, HttpAclBuilder.build,
        HttpAclBuilder.new]
  · intro n v
    simp [HttpAcl.is_header_allowed, HttpAclBuilder.build, HttpAclBuilder.new]
  · intro p
    simp [HttpAcl.is_url_path_allowed, routerAt, HttpAclBuilder.build,
      HttpAclBuilder.new]

/-- C2: the ACL-enforcing resolver wrapper denies a policy-denied
hostname with the same error for every delegate answer (the delegate is
never consulted); for an admitted hostname it returns exactly the
delegate addresses whose IP and port classifications are both allowed,
and an empty filtered list is still a success. -/
theorem c2_resolver (acl : HttpAcl) (host : String)
    (delegate : Except String (List SocketAddrM)) :
    ((acl.is_host_allowed host).is_denied = true →
      aclResolve acl host delegate = .error .hostDenied) ∧
    ((acl.is_host_allowed host).is_denied = false →
      ∀ addrs, delegate = .ok addrs →
        aclResolve acl host delegate =
          .ok (addrs.filter fun a =>
            (acl.is_ip_allowed a.ip).is_allowed &&
            (acl.is_port_allowed a.port).is_allowed)) ∧
    (∀ (a : SocketAddrM) (addrs : List SocketAddrM),
      a ∈ addrs.filter (fun x =>
        (acl.is_ip_allowed x.ip).is_allowed &&
        (acl.is_port_allowed x.port).is_allowed) ↔
      a ∈ addrs ∧ (acl.is_ip_allowed a.ip).is_allowed = true ∧
        (acl.is_port_allowed a.port).is_allowed = true) := by
  refine ⟨fun h => ?_, fun h addrs hd => ?_, fun a addrs => ?_⟩
  · simp [aclResolve, h]
  · simp [aclResolve, h, hd]
  · simp [List.mem_filter, Bool.and_eq_true]

/-- C2 witness: a denied host is rejected without the delegate answer
mattering, and an admitted host has its answer filtered down to the
allowed address. -/
theorem c2_witness :
    (emptyAcl.is_host_allowed "example.com").is_denied = true ∧
    aclResolve emptyAcl "example.com" (.ok [⟨.v4 16843009, 443⟩]) =
      .error .hostDenied ∧
    aclResolve c2Acl "good.example" (.ok [⟨.v4 167772165, 443⟩, ⟨.v4 16843009, 443⟩]) =
      .ok [⟨.v4 16843009, 443⟩] := by
  refine ⟨by decide, (c2_resolver emptyAcl "example.com" _).1 (by decide), ?_⟩
  have h := (c2_resolver c2Acl "good.example"
    (.ok [⟨.v4 167772165, 443⟩, ⟨.v4 16843009, 443⟩])).2.1 (by decide)
    [⟨.v4 167772165, 443⟩, ⟨.v4 16843009, 443⟩] rfl
  rw [h]
  rfl

namespace HttpAclCore

/-- Inversion for a successful `Except` bind. -/
theorem except_bind_ok {ε α β : Type} {x : Except ε α} {f : α → Except ε β} {b : β}
    (h : x >>= f = .ok b) : ∃ a, x = .ok a ∧ f a = .ok b := by
  cases x with
  | error e => simp [Bind.bind, Except.bind] at h
  | ok a => exact ⟨a, rfl, h⟩

/-- A loop that produced no error rejected none of its elements. -/
theorem firstErr_none {α} {f : α → Option AddError} :
    ∀ {l : List α}, firstErr f l = none → ∀ x ∈ l, f x = none := by
  intro l
  induction l with
  | nil => intro _ x hx; cases hx
  | cons y ys ih =>
    intro h x hx
    rw [firstErr] at h
    cases hfy : f y with
    | some e => simp [hfy] at h
    | none =>
      simp only [hfy] at h
      rcases List.mem_cons.mp hx with rfl | hx2
      · exact hfy
      · exact ih h x hx2

/-- Indexed form of `firstErr_none`, for loops over `enumerate`. -/
theorem firstErrIdx_none {α} {f : Nat → α → Option AddError} :
    ∀ {i : Nat} {l : List α}, firstErrIdx f i l = none →
      ∀ (j : Nat) (hj : j < l.length), f (i + j) (l.get ⟨j, hj⟩) = none := by
  intro i l
  induction l generalizing i with
  | nil => intro _ j hj; exact absurd hj (Nat.not_lt_zero j)
  | cons y ys ih =>
    intro h j hj
    rw [firstErrIdx] at h
    cases hfy : f i y with
    | some e => simp [hfy] at h
    | none =>
      simp only [hfy] at h
      cases j with
      | zero => simpa using hfy
      | succ k =>
        have hk := ih h k (Nat.lt_of_succ_lt_succ hj)
        simpa [show i + (k + 1) = i + 1 + k by omega] using hk

/-- A validator check that succeeded rejected none of its elements. -/
theorem checkEach_ok {α} {f : α → Option AddError} {l : List α}
    (h : checkEach f l = .ok ()) : ∀ x ∈ l, f x = none := by
  unfold checkEach at h
  cases hf : firstErr f l with
  | some e => simp [hf] at h
  | none => exact firstErr_none hf

/-- A guard that succeeded had a false condition. -/
theorem guardNot_ok {c : Bool} {e : AddError} (h : guardNot c e = .ok ()) :
    c = false := by
  cases c
  · rfl
  · simp [guardNot] at h

/-- If the allowed-URL-path loop of the validator completes, none of the
allowed paths appears in the denied path list. -/
theorem insertAllowedPaths_ok {dl : List String} {drt : Router} :
    ∀ {r : Router} {ps : List String} {r2 : Router},
      insertAllowedPaths dl drt r ps = .ok r2 → ∀ p ∈ ps, p ∉ dl := by
  intro r ps
  induction ps generalizing r with
  | nil => intro r2 _ p hp; cases hp
  | cons q qs ih =>
    intro r2 h p hp
    rw [insertAllowedPaths] at h
    by_cases hc : q ∈ dl ∨ routerAt drt q = true
    · rw [if_pos hc] at h
      exact Except.noConfusion h
    · rw [if_neg hc] at h
      rcases List.mem_cons.mp hp with rfl | hp2
      · exact fun hpd => hc (Or.inl hpd)
      · by_cases hr : routerAt r q = true
        · rw [if_pos hr] at h
          exact ih h p hp2
        · rw [if_neg hr] at h
          cases hins : routerInsert r q with
          | none =>
            simp only [hins] at h
            exact Except.noConfusion h
          | some r3 =>
            simp only [hins] at h
            exact ih h p hp2

end HttpAclCore

/-- C5: every policy obtained from a successful `try_build` has disjoint
allow and deny lists in every dimension: a value present in both lists of
the methods, hosts, port-range, IP-range or URL-path dimension makes
`try_build` fail instead of producing a policy. -/
theorem c5_try_build_disjoint (b : HttpAclBuilder) (acl : HttpAcl)
    (h : b.try_build = .ok acl) :
    (∀ m ∈ b.allowed_methods, m ∉ b.denied_methods) ∧
    (∀ x ∈ b.allowed_hosts, x ∉ b.denied_hosts) ∧
    (∀ r ∈ b.allowed_port_ranges, r ∉ b.denied_port_ranges) ∧
    (∀ r ∈ b.allowed_ip_ranges, r ∉ b.denied_ip_ranges) ∧
    (∀ p ∈ b.allowed_url_paths, p ∉ b.denied_url_paths) := by
  unfold HttpAclBuilder.try_build at h
  obtain ⟨u, hg01, h⟩ := except_bind_ok h
  obtain ⟨u, hc02, h⟩ := except_bind_ok h
  obtain ⟨u, hg03, h⟩ := except_bind_ok h
  obtain ⟨u, hc04, h⟩ := except_bind_ok h
  obtain ⟨u, hg05, h⟩ := except_bind_ok h
  obtain ⟨u, hc06, h⟩ := except_bind_ok h
  obtain ⟨u, hg07, h⟩ := except_bind_ok h
  obtain ⟨u, hc08, h⟩ := except_bind_ok h
  obtain ⟨u, hg09, h⟩ := except_bind_ok h
  obtain ⟨u, hg10, h⟩ := except_bind_ok h
  obtain ⟨u, hc11, h⟩ := except_bind_ok h
  obtain ⟨u, hg12, h⟩ := except_bind_ok h
  obtain ⟨u, hg13, h⟩ := except_bind_ok h
  obtain ⟨u, hc14, h⟩ := except_bind_ok h
  obtain ⟨u, hg15, h⟩ := except_bind_ok h
  obtain ⟨u, hg16, h⟩ := except_bind_ok h
  obtain ⟨u, hc17, h⟩ := except_bind_ok h
  obtain ⟨u, hg18, h⟩ := except_bind_ok h
  obtain ⟨u, hg19, h⟩ := except_bind_ok h
  obtain ⟨u, hc20, h⟩ := except_bind_ok h
  obtain ⟨u, hg21, h⟩ := except_bind_ok h
  obtain ⟨u, hc22, h⟩ := except_bind_ok h
  obtain ⟨u, hg23, h⟩ := except_bind_ok h
  obtain ⟨ar, har, h⟩ := except_bind_ok h
  obtain ⟨u, hg25, h⟩ := except_bind_ok h
  obtain ⟨dr, hdr, h⟩ := except_bind_ok h
  cases u
  refine ⟨?_, ?_, ?_, ?_, ?_⟩
  · intro m hm hmd
    have hx := checkEach_ok hc02 m hm
    rw [if_pos hmd] at hx
    exact Option.noConfusion hx
  · intro x hx hxd
    have hy := checkEach_ok hc06 x hx
    by_cases hv : is_valid_host x = true
    · simp only [hv, Bool.not_true, if_neg] at hy
      rw [if_pos hxd] at hy
      exact Option.noConfusion hy
    · simp only [Bool.not_eq_true] at hv
      simp [hv] at hy
  · intro r hr hrd
    have hy := checkEach_ok hc11 r hr
    rw [if_pos hrd] at hy
    exact Option.noConfusion hy
  · intro r hr hrd
    have hy := checkEach_ok hc17 r hr
    rw [if_pos hrd] at hy
    exact Option.noConfusion hy
  · exact insertAllowedPaths_ok har

/-- C5 witness: the fresh builder passes validation, and its allowed GET
method is indeed absent from its denied list. -/
theorem c5_witness :
    HttpAclBuilder.new.try_build = .ok HttpAclBuilder.new.build ∧
    HttpRequestMethod.GET ∉ HttpAclBuilder.new.denied_methods :=
  ⟨rfl,
    (c5_try_build_disjoint HttpAclBuilder.new HttpAclBuilder.new.build rfl).1
      .GET (by decide)⟩

namespace HttpAclCore

/-- A single-condition rejection that did not fire. -/
theorem if_single_none {c : Prop} [Decidable c] {e : AddError}
    (h : (if c then some e else none) = none) : ¬c := by
  intro hc
  rw [if_pos hc] at h
  exact Option.noConfusion h

/-- A two-condition rejection chain that did not fire. -/
theorem if_chain2_none {c1 c2 : Prop} [Decidable c1] [Decidable c2]
    {e1 e2 : AddError}
    (h : (if c1 then some e1 else if c2 then some e2 else none) = none) :
    ¬c1 ∧ ¬c2 := by
  by_cases h1 : c1
  · rw [if_pos h1] at h
    exact absurd h (by simp)
  · rw [if_neg h1] at h
    by_cases h2 : c2
    · rw [if_pos h2] at h
      exact absurd h (by simp)
    · exact ⟨h1, h2⟩

end HttpAclCore

/-- C6 counterexample: the denied-port-range bulk setter accepts a
replacement list whose two entries overlap each other, and the
allowed-methods bulk setter accepts a duplicated method, so the setters do
not validate the replacement list against itself. -/
theorem c6_counterexample :
    range_overlaps [⟨5000, 6000⟩, ⟨5500, 5600⟩] ⟨5500, 5600⟩ (some 1) = true ∧
    HttpAclBuilder.new.set_denied_port_ranges [⟨5000, 6000⟩, ⟨5500, 5600⟩] =
      .ok { HttpAclBuilder.new with
        denied_port_ranges := [⟨5000, 6000⟩, ⟨5500, 5600⟩] } ∧
    HttpAclBuilder.new.set_allowed_methods [.GET, .GET] =
      .ok { HttpAclBuilder.new with allowed_methods := [.GET, .GET] } :=
  ⟨by decide, rfl, rfl⟩

/-- C6 amended: every bulk setter validates the replacement list
element-wise against the opposite list before replacing the field
wholesale (hosts additionally for syntax; the allowed port-range and both
IP-range setters additionally reject overlaps within the replacement list
and with the opposite list, and the IP-range setters require well-formed
ranges); the denied port-range setter checks only exact membership in the
allowed ranges, and duplicates within method, host and header replacement
lists are not rejected. -/
theorem c6_amended :
    (∀ (b : HttpAclBuilder) (ms : List HttpRequestMethod) (b2 : HttpAclBuilder),
      b.set_allowed_methods ms = .ok b2 →
        (∀ m ∈ ms, m ∉ b.denied_methods) ∧
        b2 = { b with allowed_methods := ms }) ∧
    (∀ (b : HttpAclBuilder) (ms : List HttpRequestMethod) (b2 : HttpAclBuilder),
      b.set_denied_methods ms = .ok b2 →
        (∀ m ∈ ms, m ∉ b.allowed_methods) ∧
        b2 = { b with denied_methods := ms }) ∧
    (∀ (b : HttpAclBuilder) (hs : List String) (b2 : HttpAclBuilder),
      b.set_allowed_hosts hs = .ok b2 →
        (∀ x ∈ hs, is_valid_host x = true ∧ x ∉ b.denied_hosts) ∧
        b2 = { b with allowed_hosts := hs }) ∧
    (∀ (b : HttpAclBuilder) (hs : List String) (b2 : HttpAclBuilder),
      b.set_denied_hosts hs = .ok b2 →
        (∀ x ∈ hs, is_valid_host x = true ∧ x ∉ b.allowed_hosts) ∧
        b2 = { b with denied_hosts := hs }) ∧
    (∀ (b : HttpAclBuilder) (rs : List PortRange) (b2 : HttpAclBuilder),
      b.set_allowed_port_ranges rs = .ok b2 →
        (∀ (j : Nat) (hj : j < rs.length),
          rs.get ⟨j, hj⟩ ∉ b.denied_port_ranges ∧
          range_overlaps rs (rs.get ⟨j, hj⟩) (some j) = false ∧
          range_overlaps b.denied_port_ranges (rs.get ⟨j, hj⟩) none = false) ∧
        b2 = { b with allowed_port_ranges := rs }) ∧
    (∀ (b : HttpAclBuilder) (rs : List PortRange) (b2 : HttpAclBuilder),
      b.set_denied_port_ranges rs = .ok b2 →
        (∀ r ∈ rs, r ∉ b.allowed_port_ranges) ∧
        b2 = { b with denied_port_ranges := rs }) ∧
    (∀ (b : HttpAclBuilder) (rs : List IpRange) (b2 : HttpAclBuilder),
      b.set_allowed_ip_ranges rs = .ok b2 →
        (∀ r ∈ rs, IpAddr.le r.lo r.hi = true) ∧
        (∀ (j : Nat) (hj : j < rs.length),
          rs.get ⟨j, hj⟩ ∉ b.denied_ip_ranges ∧
          ip_range_overlaps rs (rs.get ⟨j, hj⟩) (some j) = false ∧
          ip_range_overlaps b.denied_ip_ranges (rs.get ⟨j, hj⟩) none = false) ∧
        b2 = { b with allowed_ip_ranges := rs }) ∧
    (∀ (b : HttpAclBuilder) (rs : List IpRange) (b2 : HttpAclBuilder),
      b.set_denied_ip_ranges rs = .ok b2 →
        (∀ r ∈ rs, IpAddr.le r.lo r.hi = true) ∧
        (∀ (j : Nat) (hj : j < rs.length),
          rs.get ⟨j, hj⟩ ∉ b.allowed_ip_ranges ∧
          ip_range_overlaps rs (rs.get ⟨j, hj⟩) (some j) = false ∧
          ip_range_overlaps b.allowed_ip_ranges (rs.get ⟨j, hj⟩) none = false) ∧
        b2 = { b with denied_ip_ranges := rs }) ∧
    (∀ (b : HttpAclBuilder) (hs : List (String × Option String)) (b2 : HttpAclBuilder),
      b.set_allowed_headers hs = .ok b2 →
        (∀ kv ∈ hs, b.denied_headers.lookup kv.1 = none) ∧
        b2 = { b with allowed_headers := hs }) ∧
    (∀ (b : HttpAclBuilder) (hs : List (String × Option String)) (b2 : HttpAclBuilder),
      b.set_denied_headers hs = .ok b2 →
        (∀ kv ∈ hs, b.allowed_headers.lookup kv.1 = none) ∧
        b2 = { b with denied_headers := hs }) := by
  refine ⟨?_, ?_, ?_, ?_, ?_, ?_, ?_, ?_, ?_, ?_⟩
  · intro b ms b2 hok
    unfold HttpAclBuilder.set_allowed_methods at hok
    cases hf : firstErr (fun m =>
        if m ∈ b.denied_methods then some (.AlreadyDeniedMethod m) else none) ms with
    | some e => simp [hf] at hok
    | none =>
      simp only [hf] at hok
      refine ⟨fun m hm => if_single_none (firstErr_none hf m hm), ?_⟩
      injection hok with h2
      exact h2.symm
  · intro b ms b2 hok
    unfold HttpAclBuilder.set_denied_methods at hok
    cases hf : firstErr (fun m =>
        if m ∈ b.allowed_methods then some (.AlreadyAllowedMethod m) else none) ms with
    | some e => simp [hf] at hok
    | none =>
      simp only [hf] at hok
      refine ⟨fun m hm => if_single_none (firstErr_none hf m hm), ?_⟩
      injection hok with h2
      exact h2.symm
  · intro b hs b2 hok
    unfold HttpAclBuilder.set_allowed_hosts at hok
    cases hf : firstErr (fun x =>
        if is_valid_host x then
          if x ∈ b.denied_hosts then some (.AlreadyDeniedHost x) else none
        else some (.InvalidEntity x)) hs with
    | some e => simp [hf] at hok
    | none =>
      simp only [hf] at hok
      refine ⟨fun x hx => ?_, by injection hok with h2; exact h2.symm⟩
      have hy := firstErr_none hf x hx
      by_cases hv : is_valid_host x = true
      · rw [if_pos hv] at hy
        exact ⟨hv, if_single_none hy⟩
      · rw [if_neg hv] at hy
        exact absurd hy (by simp)
  · intro b hs b2 hok
    unfold HttpAclBuilder.set_denied_hosts at hok
    cases hf : firstErr (fun x =>
        if is_valid_host x then
          if x ∈ b.allowed_hosts then some (.AlreadyAllowedHost x) else none
        else some (.InvalidEntity x)) hs with
    | some e => simp [hf] at hok
    | none =>
      simp only [hf] at hok
      refine ⟨fun x hx => ?_, by injection hok with h2; exact h2.symm⟩
      have hy := firstErr_none hf x hx
      by_cases hv : is_valid_host x = true
      · rw [if_pos hv] at hy
        exact ⟨hv, if_single_none hy⟩
      · rw [if_neg hv] at hy
        exact absurd hy (by simp)
  · intro b rs b2 hok
    unfold HttpAclBuilder.set_allowed_port_ranges at hok
    split at hok
    · exact absurd hok (by simp)
    · rename_i hf
      refine ⟨fun j hj => ?_, by injection hok with h2; exact h2.symm⟩
      have hx := firstErrIdx_none hf j hj
      simp only [Nat.zero_add] at hx
      obtain ⟨h1, h2⟩ := if_chain2_none hx
      simp only [Bool.not_eq_true, Bool.or_eq_false_iff] at h2
      exact ⟨h1, h2.1, h2.2⟩
  · intro b rs b2 hok
    unfold HttpAclBuilder.set_denied_port_ranges at hok
    cases hf : firstErr (fun r =>
        if r ∈ b.allowed_port_ranges then some (.AlreadyAllowedPortRange r)
        else none) rs with
    | some e => simp [hf] at hok
    | none =>
      simp only [hf] at hok
      refine ⟨fun r hr => if_single_none (firstErr_none hf r hr), ?_⟩
      injection hok with h2
      exact h2.symm
  · intro b rs b2 hok
    unfold HttpAclBuilder.set_allowed_ip_ranges at hok
    cases hv : intoIpRanges rs with
    | none => simp [hv] at hok
    | some rs2 =>
      simp only [hv] at hok
      have hall : rs.all (fun r => (intoIpRange r).isSome) = true := by
        unfold intoIpRanges at hv
        by_cases hc : rs.all (fun r => (intoIpRange r).isSome) = true
        · exact hc
        · rw [if_neg hc] at hv
          exact absurd hv (by simp)
      have hrs : rs2 = rs := by
        unfold intoIpRanges at hv
        rw [if_pos hall] at hv
        injection hv with h
        exact h.symm
      rw [hrs] at hok
      have hle : ∀ r ∈ rs, IpAddr.le r.lo r.hi = true := by
        intro r hr
        have hp := List.all_eq_true.mp hall r hr
        unfold intoIpRange at hp
        by_cases hc : IpAddr.le r.lo r.hi = true
        · exact hc
        · rw [if_neg hc] at hp
          exact absurd hp (by simp)
      split at hok
      · exact absurd hok (by simp)
      · rename_i hf
        refine ⟨hle, fun j hj => ?_, by injection hok with h2; exact h2.symm⟩
        have hx := firstErrIdx_none hf j hj
        simp only [Nat.zero_add] at hx
        obtain ⟨h1, h2⟩ := if_chain2_none hx
        simp only [Bool.not_eq_true, Bool.or_eq_false_iff] at h2
        exact ⟨h1, h2.1, h2.2⟩
  · intro b rs b2 hok
    unfold HttpAclBuilder.set_denied_ip_ranges at hok
    cases hv : intoIpRanges rs with
    | none => simp [hv] at hok
    | some rs2 =>
      simp only [hv] at hok
      have hall : rs.all (fun r => (intoIpRange r).isSome) = true := by
        unfold intoIpRanges at hv
        by_cases hc : rs.all (fun r => (intoIpRange r).isSome) = true
        · exact hc
        · rw [if_neg hc] at hv
          exact absurd hv (by simp)
      have hrs : rs2 = rs := by
        unfold intoIpRanges at hv
        rw [if_pos hall] at hv
        injection hv with h
        exact h.symm
      rw [hrs] at hok
      have hle : ∀ r ∈ rs, IpAddr.le r.lo r.hi = true := by
        intro r hr
        have hp := List.all_eq_true.mp hall r hr
        unfold intoIpRange at hp
        by_cases hc : IpAddr.le r.lo r.hi = true
        · exact hc
        · rw [if_neg hc] at hp
          exact absurd hp (by simp)
      split at hok
      · exact absurd hok (by simp)
      · rename_i hf
        refine ⟨hle, fun j hj => ?_, by injection hok with h2; exact h2.symm⟩
        have hx := firstErrIdx_none hf j hj
        simp only [Nat.zero_add] at hx
        obtain ⟨h1, h2⟩ := if_chain2_none hx
        simp only [Bool.not_eq_true, Bool.or_eq_false_iff] at h2
        exact ⟨h1, h2.1, h2.2⟩
  · intro b hs b2 hok
    unfold HttpAclBuilder.set_allowed_headers at hok
    cases hf : firstErr (fun kv =>
        if (b.denied_headers.lookup kv.1).isSome then
          some (.AlreadyDeniedHeader kv.1 kv.2)
        else none) hs with
    | some e => simp [hf] at hok
    | none =>
      simp only [hf] at hok
      refine ⟨fun kv hkv => ?_, by injection hok with h2; exact h2.symm⟩
      have hy := if_single_none (firstErr_none hf kv hkv)
      exact Option.not_isSome_iff_eq_none.mp hy
  · intro b hs b2 hok
    unfold HttpAclBuilder.set_denied_headers at hok
    cases hf : firstErr (fun kv =>
        if (b.allowed_headers.lookup kv.1).isSome then
          some (.AlreadyAllowedHeader kv.1 kv.2)
        else none) hs with
    | some e => simp [hf] at hok
    | none =>
      simp only [hf] at hok
      refine ⟨fun kv hkv => ?_, by injection hok with h2; exact h2.symm⟩
      have hy := if_single_none (firstErr_none hf kv hkv)
      exact Option.not_isSome_iff_eq_none.mp hy

/-- C6 witness: the amended theorem applied to concrete successful setter
calls on the fresh builder. -/
theorem c6_witness :
    HttpRequestMethod.OTHER "X" ∉ HttpAclBuilder.new.denied_methods ∧
    PortRange.mk 9000 9100 ∉ HttpAclBuilder.new.allowed_port_ranges :=
  ⟨(c6_amended.1 HttpAclBuilder.new [.OTHER "X"]
      { HttpAclBuilder.new with allowed_methods := [.OTHER "X"] } rfl).1
      (.OTHER "X") (by decide),
    (c6_amended.2.2.2.2.2.1 HttpAclBuilder.new [⟨9000, 9100⟩]
      { HttpAclBuilder.new with denied_port_ranges := [⟨9000, 9100⟩] } rfl).1
      ⟨9000, 9100⟩ (by decide)⟩
